import Mathlib

/-!
Verification model of `air_temp_for_trip.py`: a batch tool that correlates a
trip log (timestamp, latitude, longitude) with a gridded temperature dataset.

Timestamps (`datetime.datetime` values, seconds precision, no timezone) are
modelled as integers counting seconds since 1970-01-01 00:00:00.  Python's
`timedelta.days` is floor division of the total duration by 86400, and
`datetime.date` differences are differences of absolute day numbers; both are
expressed with `Int.fdiv`.  Real-valued latitudes, longitudes and temperatures
are modelled as rationals.
-/

namespace AirTemp

/-- Seconds in a day. -/
def secsPerDay : ℤ := 86400

/-- Absolute day number of a timestamp (the `datetime.date` part). -/
def dayOf (t : ℤ) : ℤ := t.fdiv 86400

/-- `datetime.datetime(start.year, start.month, start.day)`: midnight of the
timestamp's calendar day, in seconds. -/
def startFromZero (t : ℤ) : ℤ := 86400 * dayOf t

/-- Python `timedelta.days` of a duration given in seconds: floor division by
86400 (floor, also for negative durations). -/
def timedeltaDays (d : ℤ) : ℤ := d.fdiv 86400

/-- `six_hour_aligned_dates(start, end)` from the source: starting from
midnight of `start`'s day, yield `((end - start).days + 1) * 4` timestamps
stepping by 6 hours (21600 s).  A negative count gives the empty sequence,
as `range` does. -/
def six_hour_aligned_dates (start stop : ℤ) : List ℤ :=
  (List.range ((timedeltaDays (stop - start) + 1) * 4).toNat).map
    (fun n : ℕ => startFromZero start + 21600 * (n : ℤ))

/-- Day number of a civil date (proleptic Gregorian, 1970-01-01 = day 0);
the standard `days_from_civil` algorithm, used to model `datetime`
construction from parsed fields. -/
def daysFromCivil (year month day : ℤ) : ℤ :=
  let y := if month ≤ 2 then year - 1 else year
  let era := y.fdiv 400
  let yoe := y - era * 400
  let doy := (153 * (month + (if 2 < month then -3 else 9)) + 2).fdiv 5 + day - 1
  let doe := yoe * 365 + yoe.fdiv 4 - yoe.fdiv 100 + doy
  era * 146097 + doe - 719468

/-- Calendar year of an absolute day number (`datetime.year`); the year
component of the standard `civil_from_days` algorithm. -/
def yearOfDay (z : ℤ) : ℤ :=
  let z' := z + 719468
  let era := z'.fdiv 146097
  let doe := z' - era * 146097
  let yoe := (doe - doe.fdiv 1460 + doe.fdiv 36524 - doe.fdiv 146096).fdiv 365
  let y := yoe + era * 400
  let doy := doe - (365 * yoe + yoe.fdiv 4 - yoe.fdiv 100)
  let mp := (5 * doy + 2).fdiv 153
  let m := mp + (if mp < 10 then 3 else -9)
  if m ≤ 2 then y + 1 else y

/-- `date.timetuple().tm_yday`: 1-based day of year. -/
def tm_yday (t : ℤ) : ℤ := dayOf t - daysFromCivil (yearOfDay (dayOf t)) 1 1 + 1

/-- Dataset time-slice index: `date.timetuple().tm_yday * 4 - 1`. -/
def timeIndexOf (t : ℤ) : ℤ := tm_yday t * 4 - 1

/-! ### Grid Locator -/

/-- `NC_LON = tuple(0.0 + 2.5 * n for n in range(144))`. -/
def NC_LON : List ℚ := (List.range 144).map (fun n => 0 + 5/2 * n)

/-- `NC_LAT = tuple(90.0 - 2.5 * n for n in range(73))`. -/
def NC_LAT : List ℚ := (List.range 73).map (fun n => 90 - 5/2 * n)

/-- `NC_LEVELS_COUNT = 17`. -/
def NC_LEVELS_COUNT : ℕ := 17

/-- Python's `min(xs, key=key)`: the first element attaining the minimal key
(the running best is replaced only on a strictly smaller key).  `none` on the
empty list, where Python raises. -/
def minByKey (key : ℚ → ℚ) : List ℚ → Option ℚ
  | [] => none
  | x :: xs => some (xs.foldl (fun best p => if key p < key best then p else best) x)

/-- Python's `list.index(v)`: index of the first occurrence of `v`.  Returns
the length when absent, where Python raises (never hit by the program: the
queried value is always a member). -/
def listIndex (l : List ℚ) (v : ℚ) : ℕ :=
  match l with
  | [] => 0
  | x :: xs => if x = v then 0 else listIndex xs v + 1

/-- `approximate_position(nc_positions, lat=…, lon=…)` from the source.
A `lat` query is used as-is; a `lon` query below 0 is first mapped to
`360 + lon`.  Returns the index (via `list.index`) of the nearest lattice
point, chosen by `min` with key `fabs(p - current_position)`.  The `0`
fallbacks correspond to calls that raise in Python (both arguments `None`,
or an empty axis) and are never reached by the program.  The source's
`functools.lru_cache` is semantically transparent for this pure function and
is not modelled. -/
def approximate_position (nc_positions : List ℚ) (lat lon : Option ℚ) : ℕ :=
  let current_position : ℚ :=
    match lat with
    | some v => v
    | none =>
      match lon with
      | some l => if 0 ≤ l then l else 360 + l
      | none => 0
  match minByKey (fun p => |p - current_position|) nc_positions with
  | some pos => listIndex nc_positions pos
  | none => 0

/-! ### Trip Parser -/

/-- Python's `\s` class (ASCII range, as used by the trip files). -/
def isPySpace (c : Char) : Bool :=
  c == ' ' || c == '\t' || c == '\n' || c == '\x0d' || c == '\x0b' || c == '\x0c'

/-- Numeric value of a digit character. -/
def digitVal (c : Char) : ℕ := c.toNat - 48

/-- Python `int` of a non-empty string of digits. -/
def natOfDigits (cs : List Char) : ℕ := cs.foldl (fun a c => 10 * a + digitVal c) 0

/-- `TRIP_FILE_LINE.match(line)`: the anchored pattern
`(\d{4}-\d{2}-\d{2} \d{2}:\d{2}:\d{2})\S*\s+(\S+)\s+(\S+)\s?.*`.
The fixed-width timestamp group is matched positionally; the tail's character
classes `\S`/`\s` are complementary, so greedy maximal-run matching is
complete (no backtracking can succeed where it fails), and the trailing
`\s?.*` always matches since `re.match` only needs a prefix match.  Returns
the three captured groups (date string, lat token, lon token). -/
def matchTripLine (cs : List Char) : Option (List Char × List Char × List Char) :=
  match cs with
  | y1 :: y2 :: y3 :: y4 :: q1 :: m1 :: m2 :: q2 :: d1 :: d2 :: sp ::
      h1 :: h2 :: q3 :: n1 :: n2 :: q4 :: s1 :: s2 :: rest =>
    if y1.isDigit && y2.isDigit && y3.isDigit && y4.isDigit
        && q1 == '-' && m1.isDigit && m2.isDigit && q2 == '-'
        && d1.isDigit && d2.isDigit && sp == ' '
        && h1.isDigit && h2.isDigit && q3 == ':' && n1.isDigit && n2.isDigit
        && q4 == ':' && s1.isDigit && s2.isDigit then
      let dateStr := [y1, y2, y3, y4, q1, m1, m2, q2, d1, d2, sp, h1, h2, q3, n1, n2, q4, s1, s2]
      let afterTz := rest.dropWhile (fun c => !isPySpace c)
      let ws1 := afterTz.takeWhile isPySpace
      let afterWs1 := afterTz.dropWhile isPySpace
      let lat := afterWs1.takeWhile (fun c => !isPySpace c)
      let afterLat := afterWs1.dropWhile (fun c => !isPySpace c)
      let ws2 := afterLat.takeWhile isPySpace
      let lon := (afterLat.dropWhile isPySpace).takeWhile (fun c => !isPySpace c)
      if ws1.isEmpty || lat.isEmpty || ws2.isEmpty || lon.isEmpty then none
      else some (dateStr, lat, lon)
    else none
  | _ => none

/-- Whether a (proleptic Gregorian) year is a leap year. -/
def isLeap (y : ℕ) : Bool := y % 4 == 0 && (y % 100 != 0 || y % 400 == 0)

/-- Number of days in a month. -/
def daysInMonth (y m : ℕ) : ℕ :=
  if m = 2 then (if isLeap y then 29 else 28)
  else if m = 4 ∨ m = 6 ∨ m = 9 ∨ m = 11 then 30 else 31

/-- `datetime.datetime.strptime(s, "%Y-%m-%d %H:%M:%S")` on the 19-character
date group already shaped by the regular expression: validates the field
ranges (month 1–12, day within the month, hour ≤ 23, minute ≤ 59,
second ≤ 59, year ≥ 1 — `datetime.MINYEAR`) and returns the timestamp in
seconds; `none` models the `ValueError` Python raises otherwise. -/
def strptime (cs : List Char) : Option ℤ :=
  match cs with
  | [y1, y2, y3, y4, _, m1, m2, _, d1, d2, _, h1, h2, _, n1, n2, _, s1, s2] =>
    let y := 1000 * digitVal y1 + 100 * digitVal y2 + 10 * digitVal y3 + digitVal y4
    let mo := 10 * digitVal m1 + digitVal m2
    let da := 10 * digitVal d1 + digitVal d2
    let ho := 10 * digitVal h1 + digitVal h2
    let mi := 10 * digitVal n1 + digitVal n2
    let se := 10 * digitVal s1 + digitVal s2
    if 1 ≤ y ∧ 1 ≤ mo ∧ mo ≤ 12 ∧ 1 ≤ da ∧ da ≤ daysInMonth y mo
        ∧ ho ≤ 23 ∧ mi ≤ 59 ∧ se ≤ 59 then
      some (daysFromCivil y mo da * 86400 + ho * 3600 + mi * 60 + se)
    else none
  | _ => none

/-- Unsigned part of Python `float(...)` on the decimal grammar the trip
files use: `digits`, `digits.digits`, `digits.` or `.digits` (scientific
notation, `inf`/`nan` and underscores are out of the modelled subset). -/
def parseUnsigned (cs : List Char) : Option ℚ :=
  let intPart := cs.takeWhile Char.isDigit
  let rest := cs.dropWhile Char.isDigit
  match rest with
  | [] => if intPart.isEmpty then none else some (natOfDigits intPart)
  | '.' :: frac =>
    if frac.all Char.isDigit ∧ ¬(intPart.isEmpty ∧ frac.isEmpty) then
      some ((natOfDigits intPart : ℚ)
        + (natOfDigits frac : ℚ) / ((10 ^ frac.length : ℕ) : ℚ))
    else none
  | _ => none

/-- Python `float(...)` with an optional sign. -/
def parseFloat (cs : List Char) : Option ℚ :=
  match cs with
  | '-' :: rest => (parseUnsigned rest).map Neg.neg
  | '+' :: rest => parseUnsigned rest
  | _ => parseUnsigned cs

/-- One fully parsed trip record (a matched line). -/
structure TripRec where
  date : ℤ
  lat : ℚ
  lon : ℚ
deriving DecidableEq

/-- One `trip_by_location` entry: the mutable dict built at a location's first
occurrence (its `end_date` is the only field updated afterwards). -/
structure LocGroup where
  lat : ℚ
  lon : ℚ
  nc_lat : ℚ
  nc_lon : ℚ
  nc_lat_index : ℕ
  nc_lon_index : ℕ
  start_date : ℤ
  end_date : ℤ
deriving DecidableEq

/-- Python `dict` assignment `m[k] = v` on an insertion-ordered association
list: an existing key keeps its position and gets the new value, a new key is
appended at the end. -/
def dictInsert {K V : Type} [DecidableEq K] : List (K × V) → K → V → List (K × V)
  | [], k, v => [(k, v)]
  | (k', v') :: rest, k, v =>
    if k' = k then (k, v) :: rest else (k', v') :: dictInsert rest k v

/-- Python `dict` lookup on an insertion-ordered association list. -/
def dictLookup {K V : Type} [DecidableEq K] : List (K × V) → K → Option V
  | [], _ => none
  | (k', v') :: rest, k => if k' = k then some v' else dictLookup rest k

/-- State of the parsing loop of `main`: `trip_by_location`,
`trip_by_date` and `trip_end_date`.  `trip_by_date` stores the location key
(the shared-dict reference of the Python code), to be dereferenced through
`trip_by_location`. -/
structure TripState where
  byLoc : List ((ℚ × ℚ) × LocGroup)
  byDate : List (ℤ × (ℚ × ℚ))
  endDate : Option ℤ
deriving DecidableEq

/-- Initial parsing state (`{}`, `{}`, `None`). -/
def initTripState : TripState := ⟨[], [], none⟩

/-- Loop body of `main`'s parsing loop for one matched record. -/
def stepTrip (st : TripState) (r : TripRec) : TripState :=
  let location := (r.lat, r.lon)
  let byLoc :=
    match dictLookup st.byLoc location with
    | none =>
      let lat_index := approximate_position NC_LAT (some r.lat) none
      let lon_index := approximate_position NC_LON none (some r.lon)
      st.byLoc ++ [(location,
        { lat := r.lat, lon := r.lon,
          nc_lat := NC_LAT.getD lat_index 0, nc_lon := NC_LON.getD lon_index 0,
          nc_lat_index := lat_index, nc_lon_index := lon_index,
          start_date := r.date, end_date := r.date })]
    | some g => dictInsert st.byLoc location { g with end_date := r.date }
  { byLoc := byLoc
    byDate := dictInsert st.byDate r.date location
    endDate := some r.date }

/-- Processing of one line of the trip file: `.ok none` when the regular
expression does not match (the line is skipped), `.ok (some r)` for a parsed
record, `.error ()` when `strptime` or `float` raises `ValueError`. -/
def parseLine (line : String) : Except Unit (Option TripRec) :=
  match matchTripLine line.data with
  | none => .ok none
  | some (dateStr, latStr, lonStr) =>
    match strptime dateStr, parseFloat latStr, parseFloat lonStr with
    | some d, some la, some lo => .ok (some ⟨d, la, lo⟩)
    | _, _, _ => .error ()

/-- The whole parsing loop over the trip file's lines. -/
def parseTrip : List String → TripState → Except Unit TripState
  | [], st => .ok st
  | l :: rest, st =>
    match parseLine l with
    | .error e => .error e
    | .ok none => parseTrip rest st
    | .ok (some r) => parseTrip rest (stepTrip st r)

/-! ### Grid Sampler -/

/-- `273.15`, the Kelvin→Celsius offset. -/
def kelvinOffset : ℚ := 5463 / 20

/-- The value appended to `nc_data[i]` for one sampled timestamp:
index 0 is the synthetic surface level
`lvl_1013 = (air[0] - 273.15) - 13/75 * (air[1] - air[0])`,
index `level_i + 1` is `air[level_i] - 273.15`.  `air` is the dataset's
4-dimensional variable, as a function of (time, level, lat, lon). -/
def levelValue (air : ℤ → ℕ → ℕ → ℕ → ℚ) (ti : ℤ) (lat_i lon_i : ℕ) : ℕ → ℚ
  | 0 => (air ti 0 lat_i lon_i - kelvinOffset)
      - 13 / 75 * (air ti 1 lat_i lon_i - air ti 0 lat_i lon_i)
  | level_i + 1 => air ti level_i lat_i lon_i - kelvinOffset

/-- Append, to the `i`-th of the running level series, the `i`-th level value
(the body's `nc_data[0].append(...)` plus its `for level_i in range(...)`
loop, which together append exactly one value to each of the 18 series). -/
def appendEach (vals : ℕ → ℚ) : List (List ℚ) → ℕ → List (List ℚ)
  | [], _ => []
  | s :: rest, i => (s ++ [vals i]) :: appendEach vals rest (i + 1)

/-- State of the sampling loop: `processed_dates` (kept in processing order;
the source's `set` only ever answers membership) and `nc_data`. -/
structure SampleState where
  processed : List ℤ
  series : List (List ℚ)
deriving DecidableEq

/-- Initial sampling state: `nc_data = [[] for _ in range(1 + NC_LEVELS_COUNT)]`. -/
def initSampleState : SampleState :=
  ⟨[], List.replicate (1 + NC_LEVELS_COUNT) []⟩

/-- Body of the sampling loop for one aligned timestamp: skip it when already
processed, otherwise append one value per level series and mark it. -/
def sampleDate (air : ℤ → ℕ → ℕ → ℕ → ℚ) (lat_i lon_i : ℕ)
    (st : SampleState) (d : ℤ) : SampleState :=
  if d ∈ st.processed then st
  else
    { processed := st.processed ++ [d]
      series := appendEach (levelValue air (timeIndexOf d) lat_i lon_i) st.series 0 }

/-- The full sampling loop: `for loc in trip_by_location.values(): for date in
six_hour_aligned_dates(...)`. -/
def sampleAll (air : ℤ → ℕ → ℕ → ℕ → ℚ) (byLoc : List ((ℚ × ℚ) × LocGroup)) :
    SampleState :=
  byLoc.foldl
    (fun st loc =>
      (six_hour_aligned_dates loc.2.start_date loc.2.end_date).foldl
        (sampleDate air loc.2.nc_lat_index loc.2.nc_lon_index) st)
    initSampleState

/-! ### Temporal Upsampler -/

/-- `x_new = range(len(data[0]) * 6)[:-5]` of `calc_hourly`, as a function of
`len(data[0])`. -/
def calcXNew (n : ℕ) : List ℕ := (List.range (n * 6)).take (n * 6 - 5)

/-- `x_old = list(0 + (x * 6) for x in range(len(data[0])))`. -/
def calcXOld (n : ℕ) : List ℕ := (List.range n).map (fun x => 0 + x * 6)

/-- `calc_hourly(data)`: evaluate, for every level series, its cubic
interpolant over `(x_old, data)` at every point of `x_new`.  The interpolant
produced by `scipy.interpolate.interp1d(x_old, data, kind="cubic")` is an
external numeric routine and is a parameter `interp` of the model; the claims
about `calc_hourly` concern the sampling grid and the result shape, which do
not depend on it.  (`interp1d` with `kind="cubic"` raises when a series has
fewer than 4 points; `main` models that check explicitly before the call.) -/
def calc_hourly (interp : List ℕ → List ℚ → ℕ → ℚ) (data : List (List ℚ)) :
    List (List ℚ) :=
  let x_old := calcXOld (data.headD []).length
  let x_new := calcXNew (data.headD []).length
  data.map (fun row => x_new.map (fun x => interp x_old row x))

/-! ### Report Writer -/

/-- The header fields of `OUT_FILE_LINE.format("date", "lat_orig", ...)`. -/
def headerFields : List String :=
  ["date", "lat_orig", "lon_orig", "lat_nc", "lon_nc", "level_1013", "level_1000"]
    ++ List.replicate 16 "level_X"

/-- One output row before formatting. -/
structure Row where
  date : ℤ
  lat : ℚ
  lon : ℚ
  nc_lat : ℚ
  nc_lon : ℚ
  levels : List ℚ
deriving DecidableEq

/-- A placeholder location group (never observed: `trip_by_date` values are
always keys of `trip_by_location`). -/
def junkGroup : LocGroup :=
  ⟨0, 0, 0, 0, 0, 0, 0, 0⟩

/-- Python `zip(trip_by_date.items(), *hourly)`: tuples of the `i`-th date
item and the `i`-th element of each hourly series, for `i` below the minimum
of all the lengths. -/
def pyZipRows (byDate : List (ℤ × (ℚ × ℚ))) (hourly : List (List ℚ)) :
    List ((ℤ × (ℚ × ℚ)) × List ℚ) :=
  let n := hourly.foldl (fun m s => min m s.length) byDate.length
  (List.range n).map
    (fun i => (byDate.getD i (0, (0, 0)), hourly.map (fun s => s.getD i 0)))

/-- One output row: the date, the `loc_info` fields reached through the
shared `trip_by_location` record, and the 18 level values. -/
def mkRow (byLoc : List ((ℚ × ℚ) × LocGroup)) (item : ℤ × (ℚ × ℚ))
    (levels : List ℚ) : Row :=
  let g := (dictLookup byLoc item.2).getD junkGroup
  ⟨item.1, g.lat, g.lon, g.nc_lat, g.nc_lon, levels⟩

/-- The field strings substituted into `OUT_FILE_LINE` for a row. -/
def rowFields (r : Row) : List String :=
  [toString r.date, toString r.lat, toString r.lon,
    toString r.nc_lat, toString r.nc_lon] ++ r.levels.map toString

/-- `OUT_FILE_LINE.format(...)`: the fields joined by four spaces, plus a
newline. -/
def renderLine (fields : List String) : String :=
  String.intercalate "    " fields ++ "\n"

/-- The written report: header fields, then the field lists of the zipped
rows. -/
def reportOf (pt : TripState) (hourly : List (List ℚ)) :
    List String × List (List String) :=
  (headerFields,
    (pyZipRows pt.byDate hourly).map
      (fun p => rowFields (mkRow pt.byLoc p.1 p.2)))

/-! ### `main` -/

/-- The observable outcome of a run of `main`. -/
inductive Outcome where
  /-- `os.sys.exit(1)`: no line of the trip file matched. -/
  | exit1 : Outcome
  /-- `ValueError("NC_FILE's filename should contain a year")`. -/
  | errNoYear : Outcome
  /-- `ValueError("Trip should be in boundaries of NC_FILE")`. -/
  | errYearMismatch : Outcome
  /-- An uncaught `ValueError` from `strptime` or `float` on a matched line. -/
  | errParse : Outcome
  /-- The `assert` on line 134 failed (`AssertionError`). -/
  | errAssert : Outcome
  /-- `scipy.interpolate.interp1d(..., kind="cubic")` raised: fewer than 4
  samples per series. -/
  | errInterp : Outcome
  /-- The report was written: header fields and data-row fields. -/
  | done (header : List String) (rows : List (List String)) : Outcome
deriving DecidableEq

/-- Everything `main` does before `netCDF4.Dataset(...)` is opened: the
filename-year extraction (`"".join(c for c in nc_file if c.isdigit())`), the
trip-file parsing loop, the empty-trip exit and the year check, in source
order. -/
def mainPhase1 (nc_file : String) (tripLines : List String) :
    Except Outcome TripState :=
  let nc_file_year := nc_file.data.filter Char.isDigit
  if nc_file_year.isEmpty then .error .errNoYear
  else
    match parseTrip tripLines initTripState with
    | .error _ => .error .errParse
    | .ok pt =>
      match pt.endDate with
      | none => .error .exit1
      | some trip_end_date =>
        if yearOfDay (dayOf trip_end_date) ≠ (natOfDigits nc_file_year : ℤ) then
          .error .errYearMismatch
        else .ok pt

/-- Everything `main` does from the dataset open onwards: grid sampling, the
`assert int(len(trip_by_date) / 24 * 4) == len(nc_data[0])` consistency check
(`int(n / 24 * 4)` equals `n * 4 / 24` in integer arithmetic, and the float
expression Python evaluates agrees with it for every feasible size),
interpolation and report writing. -/
def mainPhase2 (interp : List ℕ → List ℚ → ℕ → ℚ) (air : ℤ → ℕ → ℕ → ℕ → ℚ)
    (pt : TripState) : Outcome :=
  let st := sampleAll air pt.byLoc
  if pt.byDate.length * 4 / 24 ≠ (st.series.headD []).length then .errAssert
  else if (st.series.headD []).length < 4 then .errInterp
  else
    let hourly := calc_hourly interp st.series
    let r := reportOf pt hourly
    .done r.1 r.2

/-- The whole of `main`, as a function of the dataset filename, the trip
file's lines, the dataset contents and the interpolation routine. -/
def main (interp : List ℕ → List ℚ → ℕ → ℚ) (nc_file : String)
    (tripLines : List String) (air : ℤ → ℕ → ℕ → ℕ → ℚ) : Outcome :=
  match mainPhase1 nc_file tripLines with
  | .error o => o
  | .ok pt => mainPhase2 interp air pt

/-- Whether a run reaches the `netCDF4.Dataset(args.nc_file[0])` call, i.e.
performs any dataset read. -/
def opensDataset (nc_file : String) (tripLines : List String) : Bool :=
  match mainPhase1 nc_file tripLines with
  | .error _ => false
  | .ok _ => true

/-- Midnight of 2018-11-16, the timestamp of the spec's running example. -/
def nov16 : ℤ := daysFromCivil 2018 11 16 * 86400

/-- The set of 6-hour-aligned timestamps lying between `a` and `b`, read off
the spec's words "the 6-hour-aligned timestamps between that group's earliest
and latest observed timestamp" (for comparison with the sequence the code
enumerates). -/
def specAlignedBetween (a b t : ℤ) : Prop := t % 21600 = 0 ∧ a ≤ t ∧ t ≤ b

instance (a b t : ℤ) : Decidable (specAlignedBetween a b t) := by
  unfold specAlignedBetween; infer_instance

/-! ### Lemmas about the Date Aligner -/

theorem length_six_hour_aligned_dates (s e : ℤ) :
    (six_hour_aligned_dates s e).length = ((timedeltaDays (e - s) + 1) * 4).toNat := by
  simp [six_hour_aligned_dates]

theorem getElem?_six_hour_aligned_dates (s e : ℤ) (n : ℕ)
    (h : n < ((timedeltaDays (e - s) + 1) * 4).toNat) :
    (six_hour_aligned_dates s e)[n]? = some (startFromZero s + 21600 * n) := by
  simp only [six_hour_aligned_dates, List.getElem?_map, List.getElem?_range h]
  rfl

theorem six_hour_aligned_dates_nodup (s e : ℤ) :
    (six_hour_aligned_dates s e).Nodup := by
  refine List.Nodup.map ?_ (List.nodup_range _)
  intro a b hab
  have h1 : (21600 : ℤ) * a = 21600 * b := add_left_cancel hab
  have h2 := mul_left_cancel₀ (by norm_num : (21600 : ℤ) ≠ 0) h1
  exact_mod_cast h2

/-- C1, amended.  For `start ≤ end`, `six_hour_aligned_dates(start, end)`
yields exactly `((end - start).days + 1) * 4` timestamps — where `.days` is
the floor of the duration in whole days, not the difference of the calendar
dates — beginning at 00:00 of start's calendar day and stepping by 6 hours;
the last yielded timestamp is 18:00 of the day `start.days + (end - start).days`
(so the sequence need not extend through the end timestamp); in particular
`six_hour_aligned_dates(2018-11-16 00:00:00, 2018-11-16 00:00:00)` yields
exactly the four timestamps 00:00, 06:00, 12:00, 18:00 of 2018-11-16. -/
theorem six_hour_aligned_dates_count_and_step (s e : ℤ) (h : s ≤ e) :
    (six_hour_aligned_dates s e).length = (((e - s).fdiv 86400 + 1) * 4).toNat ∧
    (∀ n : ℕ, n < (six_hour_aligned_dates s e).length →
      (six_hour_aligned_dates s e)[n]? =
        some (86400 * s.fdiv 86400 + 21600 * (n : ℤ))) ∧
    (six_hour_aligned_dates s e).getLast? =
      some (86400 * s.fdiv 86400 + 86400 * ((e - s).fdiv 86400) + 64800) ∧
    six_hour_aligned_dates nov16 nov16 =
      [nov16, nov16 + 21600, nov16 + 43200, nov16 + 64800] := by
  have hq : 0 ≤ (e - s).fdiv 86400 := Int.fdiv_nonneg (by omega) (by norm_num)
  have ht : timedeltaDays (e - s) = (e - s).fdiv 86400 := rfl
  have hlen : (six_hour_aligned_dates s e).length =
      (((e - s).fdiv 86400 + 1) * 4).toNat := length_six_hour_aligned_dates s e
  refine ⟨hlen, ?_, ?_, by decide⟩
  · intro n hn
    rw [hlen] at hn
    have := getElem?_six_hour_aligned_dates s e n (by rw [ht]; exact hn)
    simpa [startFromZero, dayOf] using this
  · have hk : 1 ≤ (((e - s).fdiv 86400 + 1) * 4).toNat := by omega
    rw [List.getLast?_eq_getElem?, hlen,
      getElem?_six_hour_aligned_dates s e _ (by rw [ht]; omega)]
    have hcast : ((((((e - s).fdiv 86400 + 1) * 4).toNat - 1 : ℕ)) : ℤ) =
        ((e - s).fdiv 86400) * 4 + 3 := by
      have := Int.toNat_of_nonneg (a := ((e - s).fdiv 86400 + 1) * 4) (by omega)
      omega
    simp only [startFromZero, dayOf, hcast]
    ring_nf

/-- C1, counterexample to the claim as stated: for start 2018-11-16 12:00:00
and end 2018-11-17 06:00:00 the claim's count `((end.date - start.date).days
+ 1) * 4` is 8, but the code yields 4 timestamps, and none of them reaches
the end timestamp. -/
theorem six_hour_aligned_dates_date_diff_cex :
    (six_hour_aligned_dates (nov16 + 43200) (nov16 + 108000)).length ≠
      ((dayOf (nov16 + 108000) - dayOf (nov16 + 43200) + 1) * 4).toNat ∧
    ∀ t ∈ six_hour_aligned_dates (nov16 + 43200) (nov16 + 108000),
      t < nov16 + 108000 := by decide

/-- C1, witness: the amended theorem applied at the example input. -/
theorem six_hour_aligned_dates_count_and_step_witness :
    nov16 ≤ nov16 ∧
    (six_hour_aligned_dates nov16 nov16).length =
      (((nov16 - nov16).fdiv 86400 + 1) * 4).toNat :=
  ⟨le_refl _, (six_hour_aligned_dates_count_and_step nov16 nov16 (le_refl _)).1⟩

/-! ### Lemmas about the Grid Sampler -/

theorem sampleDate_processed (air : ℤ → ℕ → ℕ → ℕ → ℚ) (lat_i lon_i : ℕ)
    (st : SampleState) (d : ℤ) :
    (sampleDate air lat_i lon_i st d).processed =
      if d ∈ st.processed then st.processed else st.processed ++ [d] := by
  by_cases h : d ∈ st.processed <;> simp [sampleDate, h]

theorem appendEach_length (vals : ℕ → ℚ) (l : List (List ℚ)) (i : ℕ) :
    (appendEach vals l i).length = l.length := by
  induction l generalizing i with
  | nil => rfl
  | cons x xs ih => simp [appendEach, ih]

theorem appendEach_lengths (vals : ℕ → ℚ) (l : List (List ℚ)) (i n : ℕ)
    (h : ∀ x ∈ l, x.length = n) :
    ∀ x ∈ appendEach vals l i, x.length = n + 1 := by
  induction l generalizing i with
  | nil => intro x hx; simp [appendEach] at hx
  | cons y ys ih =>
    intro x hx
    simp only [appendEach, List.mem_cons] at hx
    rcases hx with rfl | hx
    · simp [h y (by simp)]
    · exact ih (i + 1) (fun x hx => h x (by simp [hx])) x hx

/-- The two series-shape invariants of the sampling loop: 18 series, all of
the length of the processed-timestamp list. -/
def goodState (st : SampleState) : Prop :=
  st.series.length = 18 ∧ ∀ x ∈ st.series, x.length = st.processed.length

theorem goodState_init : goodState initSampleState := by
  refine ⟨by simp [initSampleState, NC_LEVELS_COUNT], fun x hx => ?_⟩
  have hx' : x ∈ List.replicate (1 + NC_LEVELS_COUNT) ([] : List ℚ) := hx
  simp [List.eq_of_mem_replicate hx', initSampleState]

theorem goodState_sampleDate (air : ℤ → ℕ → ℕ → ℕ → ℚ) (lat_i lon_i : ℕ)
    (st : SampleState) (d : ℤ) (h : goodState st) :
    goodState (sampleDate air lat_i lon_i st d) := by
  by_cases hd : d ∈ st.processed
  · simpa [sampleDate, hd] using h
  · refine ⟨?_, ?_⟩
    · simp [sampleDate, hd, appendEach_length, h.1]
    · intro x hx
      simp only [sampleDate, hd, if_false] at hx ⊢
      have := appendEach_lengths _ st.series 0 st.processed.length h.2 x hx
      simp [this]

theorem goodState_sampleFold (air : ℤ → ℕ → ℕ → ℕ → ℚ) (lat_i lon_i : ℕ)
    (ds : List ℤ) (st : SampleState) (h : goodState st) :
    goodState (ds.foldl (sampleDate air lat_i lon_i) st) := by
  induction ds generalizing st with
  | nil => exact h
  | cons d ds ih => exact ih _ (goodState_sampleDate air lat_i lon_i st d h)

theorem goodState_sampleAll (air : ℤ → ℕ → ℕ → ℕ → ℚ)
    (byLoc : List ((ℚ × ℚ) × LocGroup)) : goodState (sampleAll air byLoc) := by
  rw [sampleAll]
  generalize hst : initSampleState = st
  have h : goodState st := hst ▸ goodState_init
  clear hst
  induction byLoc generalizing st with
  | nil => exact h
  | cons g gs ih => exact ih _ (goodState_sampleFold air _ _ _ st h)

theorem mem_processed_sampleFold (air : ℤ → ℕ → ℕ → ℕ → ℚ) (lat_i lon_i : ℕ)
    (ds : List ℤ) (st : SampleState) (t : ℤ) :
    t ∈ (ds.foldl (sampleDate air lat_i lon_i) st).processed ↔
      t ∈ st.processed ∨ t ∈ ds := by
  induction ds generalizing st with
  | nil => simp
  | cons d ds ih =>
    simp only [List.foldl_cons, ih, sampleDate_processed, List.mem_cons]
    by_cases hd : d ∈ st.processed
    · simp only [hd, if_true]
      constructor
      · rintro (h | h) <;> tauto
      · rintro (h | rfl | h) <;> tauto
    · simp only [hd, if_false, List.mem_append, List.mem_singleton]
      tauto

theorem nodup_processed_sampleFold (air : ℤ → ℕ → ℕ → ℕ → ℚ) (lat_i lon_i : ℕ)
    (ds : List ℤ) (st : SampleState) (h : st.processed.Nodup) :
    (ds.foldl (sampleDate air lat_i lon_i) st).processed.Nodup := by
  induction ds generalizing st with
  | nil => exact h
  | cons d ds ih =>
    refine ih _ ?_
    rw [sampleDate_processed]
    by_cases hd : d ∈ st.processed
    · simpa [hd]
    · simpa [hd, List.nodup_append] using h

theorem mem_processed_sampleAll (air : ℤ → ℕ → ℕ → ℕ → ℚ)
    (byLoc : List ((ℚ × ℚ) × LocGroup)) (t : ℤ) :
    t ∈ (sampleAll air byLoc).processed ↔
      ∃ g ∈ byLoc, t ∈ six_hour_aligned_dates g.2.start_date g.2.end_date := by
  rw [sampleAll]
  have key : ∀ (gs : List ((ℚ × ℚ) × LocGroup)) (st : SampleState),
      t ∈ (gs.foldl (fun st loc =>
          (six_hour_aligned_dates loc.2.start_date loc.2.end_date).foldl
            (sampleDate air loc.2.nc_lat_index loc.2.nc_lon_index) st) st).processed ↔
        t ∈ st.processed ∨
          ∃ g ∈ gs, t ∈ six_hour_aligned_dates g.2.start_date g.2.end_date := by
    intro gs
    induction gs with
    | nil => simp
    | cons g gs ih =>
      intro st
      simp only [List.foldl_cons, ih, mem_processed_sampleFold, List.mem_cons]
      constructor
      · rintro ((h | h) | ⟨g', hg', h⟩)
        · exact Or.inl h
        · exact Or.inr ⟨g, Or.inl rfl, h⟩
        · exact Or.inr ⟨g', Or.inr hg', h⟩
      · rintro (h | ⟨g', hg' | hg', h⟩)
        · exact Or.inl (Or.inl h)
        · exact Or.inl (Or.inr (hg' ▸ h))
        · exact Or.inr ⟨g', hg', h⟩
  simpa [initSampleState] using key byLoc initSampleState

theorem nodup_processed_sampleAll (air : ℤ → ℕ → ℕ → ℕ → ℚ)
    (byLoc : List ((ℚ × ℚ) × LocGroup)) : (sampleAll air byLoc).processed.Nodup := by
  rw [sampleAll]
  generalize hst : initSampleState = st
  have h : st.processed.Nodup := by simp [← hst, initSampleState]
  clear hst
  induction byLoc generalizing st with
  | nil => exact h
  | cons g gs ih => exact ih _ (nodup_processed_sampleFold air _ _ _ st h)

/-- C4, amended.  The set of 6-hour timestamps sampled by the Grid Sampler
equals the union, over all LocationGroups, of the timestamps enumerated by
`six_hour_aligned_dates` for that group's earliest and latest observed
timestamp (which start at 00:00 of the earliest timestamp's day, and need not
reach the latest timestamp) — not the set of aligned timestamps lying between
the two; each sampled timestamp is processed exactly once (the processed list
is duplicate-free) and contributes exactly one entry to each level series,
even when the date ranges of two or more LocationGroups overlap. -/
theorem sampled_dates_union_and_dedup (air : ℤ → ℕ → ℕ → ℕ → ℚ)
    (byLoc : List ((ℚ × ℚ) × LocGroup)) :
    (sampleAll air byLoc).processed.Nodup ∧
    (∀ t, t ∈ (sampleAll air byLoc).processed ↔
      ∃ g ∈ byLoc, t ∈ six_hour_aligned_dates g.2.start_date g.2.end_date) ∧
    ∀ x ∈ (sampleAll air byLoc).series,
      x.length = (sampleAll air byLoc).processed.length :=
  ⟨nodup_processed_sampleAll air byLoc,
    fun t => mem_processed_sampleAll air byLoc t,
    (goodState_sampleAll air byLoc).2⟩

/-- C4, counterexample to the claim as stated: a trip with the single record
(2018-11-16 12:00:00, 42.5, -8.73) produces one LocationGroup whose earliest
and latest timestamp are both 12:00, yet the sampled set contains 00:00 of
that day, which is not a 6-hour-aligned timestamp between the group's
earliest and latest observed timestamps. -/
theorem sampled_dates_union_cex :
    nov16 ∈ (sampleAll (fun _ _ _ _ => 0)
        (stepTrip initTripState ⟨nov16 + 43200, 85/2, -873/100⟩).byLoc).processed ∧
    ¬ specAlignedBetween (nov16 + 43200) (nov16 + 43200) nov16 := by decide

/-- Modelled from the spec: `lvl_surface = (air0 - 273.15) - 13/75*(air1 - air0)`,
the exact arithmetic the spec requires for the synthetic surface level, as a
function of the raw Kelvin values of the two lowest-altitude native levels. -/
def specLvlSurface (air0 air1 : ℚ) : ℚ := (air0 - 27315/100) - 13/75 * (air1 - air0)

/-- C3: for every sampled 6-hour timestamp (one not yet processed) and
location, the value the Grid Sampler appends to the first level series is
exactly `(air0 - 273.15) - 13/75*(air1 - air0)`, where `air0` and `air1` are
the raw Kelvin values at dataset level indices 0 and 1 at the location's grid
indices and the timestamp's time slice. -/
theorem surface_level_formula (air : ℤ → ℕ → ℕ → ℕ → ℚ) (lat_i lon_i : ℕ)
    (st : SampleState) (d : ℤ) (hd : d ∉ st.processed) (hs : st.series ≠ []) :
    ((sampleDate air lat_i lon_i st d).series.headD []).getLast? =
      some (specLvlSurface (air (timeIndexOf d) 0 lat_i lon_i)
        (air (timeIndexOf d) 1 lat_i lon_i)) := by
  obtain ⟨s0, rest, hsr⟩ : ∃ s0 rest, st.series = s0 :: rest := by
    cases h : st.series with
    | nil => exact absurd h hs
    | cons a l => exact ⟨a, l, rfl⟩
  simp only [sampleDate, hd, if_false, hsr, appendEach, List.headD_cons,
    List.getLast?_concat]
  congr 1
  show levelValue air (timeIndexOf d) lat_i lon_i 0 = _
  simp only [levelValue, specLvlSurface, kelvinOffset]
  norm_num

/-- C3, witness: the formula theorem applied to the initial sampling state,
2018-11-16 00:00 and a concrete dataset. -/
theorem surface_level_formula_witness :
    (nov16 ∉ initSampleState.processed ∧ initSampleState.series ≠ []) ∧
    ((sampleDate (fun t l _ _ => 300 + t + l) 19 141 initSampleState nov16).series.headD
        []).getLast? =
      some (specLvlSurface (300 + timeIndexOf nov16 + 0) (300 + timeIndexOf nov16 + 1)) :=
  ⟨⟨by decide, by decide⟩,
    surface_level_formula (fun t l _ _ => 300 + (t : ℚ) + (l : ℚ)) 19 141
      initSampleState nov16 (by decide) (by decide)⟩

theorem processed_sampleFold_fresh (air : ℤ → ℕ → ℕ → ℕ → ℚ) (lat_i lon_i : ℕ)
    (ds : List ℤ) (st : SampleState) (hnd : ds.Nodup)
    (hfresh : ∀ x ∈ ds, x ∉ st.processed) :
    (ds.foldl (sampleDate air lat_i lon_i) st).processed = st.processed ++ ds := by
  induction ds generalizing st with
  | nil => simp
  | cons d ds ih =>
    have hd : d ∉ st.processed := hfresh d (by simp)
    have hstep : (sampleDate air lat_i lon_i st d).processed = st.processed ++ [d] := by
      rw [sampleDate_processed]; simp [hd]
    rw [List.foldl_cons, ih _ (hnd.of_cons) ?_, hstep]
    · simp
    · intro x hx
      rw [hstep]
      simp only [List.mem_append, List.mem_singleton]
      rintro (h | rfl)
      · exact hfresh x (by simp [hx]) h
      · exact (List.nodup_cons.mp hnd).1 hx

/-- Zero-padded two-digit rendering of an hour. -/
def pad2 (n : ℕ) : String := if n < 10 then "0" ++ toString n else toString n

/-- 24 hourly trip lines covering 2018-11-16 at a single location. -/
def hourlyTripLines : List String :=
  (List.range 24).map
    (fun h => "2018-11-16 " ++ pad2 h ++ ":00:00+00    42    -8")

/-- The parsing state the 24-line hourly trip produces. -/
def hourlyTripState : TripState :=
  (parseTrip hourlyTripLines initTripState).toOption.getD initTripState

/-- Whether an outcome is the consistency-check abort. -/
def isErrAssert : Outcome → Bool
  | .errAssert => true
  | _ => false

/-- C2, amended.  The internal consistency checkpoint compares
`int(len(trip_by_date) / 24 * 4)` — i.e. `⌊samples / 6⌋`, where `samples` is
the number of distinct trip timestamps — with the number of sampled 6-hour
timestamps, and aborts fatally exactly when they differ; for a
single-location trip whose hourly samples cover `dd` whole days (`24 * dd`
distinct timestamps spanning from a midnight to `24 * dd - 1` hours later),
the number of sampled 6-hour timestamps multiplied by 6 (not 4) equals the
number of trip samples, and the check passes. -/
theorem consistency_check_spec (interp : List ℕ → List ℚ → ℕ → ℚ)
    (air : ℤ → ℕ → ℕ → ℕ → ℚ) (pt : TripState) (key : ℚ × ℚ) (g : LocGroup)
    (d0 dd : ℤ)
    (h1 : pt.byLoc = [(key, g)])
    (h2 : g.start_date = 86400 * d0)
    (h3 : g.end_date = 86400 * d0 + 86400 * dd - 3600)
    (h4 : (pt.byDate.length : ℤ) = 24 * dd)
    (h5 : 1 ≤ dd) :
    ((sampleAll air pt.byLoc).processed.length : ℤ) * 6 = pt.byDate.length ∧
    mainPhase2 interp air pt ≠ .errAssert ∧
    ∀ pt' : TripState, (mainPhase2 interp air pt' = .errAssert ↔
      pt'.byDate.length * 4 / 24 ≠
        ((sampleAll air pt'.byLoc).series.headD []).length) := by
  have habort : ∀ pt' : TripState, (mainPhase2 interp air pt' = .errAssert ↔
      pt'.byDate.length * 4 / 24 ≠
        ((sampleAll air pt'.byLoc).series.headD []).length) := by
    intro pt'
    simp only [mainPhase2]
    split_ifs with hcond hlt
    · exact iff_of_true rfl hcond
    · exact iff_of_false (by simp) hcond
    · exact iff_of_false (by simp) hcond
  -- the aligned-date count for the single group
  have hspan : g.end_date - g.start_date = 86400 * dd - 3600 := by
    rw [h2, h3]; ring
  have hfd : (g.end_date - g.start_date).fdiv 86400 = dd - 1 := by
    rw [hspan, Int.fdiv_eq_ediv _ (by norm_num)]
    omega
  have hlen : (six_hour_aligned_dates g.start_date g.end_date).length =
      (dd.toNat) * 4 := by
    rw [length_six_hour_aligned_dates]
    have : timedeltaDays (g.end_date - g.start_date) = dd - 1 := hfd
    rw [this]
    omega
  have hproc : (sampleAll air pt.byLoc).processed =
      six_hour_aligned_dates g.start_date g.end_date := by
    rw [h1, sampleAll, List.foldl_cons, List.foldl_nil]
    exact processed_sampleFold_fresh air _ _ _ initSampleState
      (six_hour_aligned_dates_nodup _ _) (by simp [initSampleState])
  have hcount : ((sampleAll air pt.byLoc).processed.length : ℤ) * 6 =
      pt.byDate.length := by
    rw [hproc, hlen, h4]
    have : ((dd.toNat : ℤ)) = dd := Int.toNat_of_nonneg (by omega)
    push_cast
    rw [this]
    ring
  refine ⟨hcount, ?_, habort⟩
  rw [ne_eq, habort pt]
  simp only [ne_eq, not_not]
  have hhead : ((sampleAll air pt.byLoc).series.headD []).length =
      (sampleAll air pt.byLoc).processed.length := by
    have hg := goodState_sampleAll air pt.byLoc
    have hne : (sampleAll air pt.byLoc).series ≠ [] := by
      intro h
      have h18 := hg.1
      rw [h] at h18
      simp at h18
    obtain ⟨s0, rest, hsr⟩ : ∃ s0 rest, (sampleAll air pt.byLoc).series = s0 :: rest := by
      cases h : (sampleAll air pt.byLoc).series with
      | nil => exact absurd h hne
      | cons a l => exact ⟨a, l, rfl⟩
    rw [hsr, List.headD_cons]
    exact hg.2 s0 (by rw [hsr]; simp)
  rw [hhead]
  omega

/-- A handcrafted single-location trip state with the 24 hourly timestamps of
2018-11-16 (day number 17851), as the parser would group them. -/
def dayTripGroup : LocGroup :=
  ⟨42, -8, 0, 0, 0, 0, 86400 * 17851, 86400 * 17851 + 86400 * 1 - 3600⟩

/-- The trip state holding `dayTripGroup` and its 24 hourly timestamps. -/
def dayTripState : TripState :=
  ⟨[(((42 : ℚ), (-8 : ℚ)), dayTripGroup)],
    (List.range 24).map
      (fun h => ((86400 * 17851 + 3600 * (h : ℤ)), ((42 : ℚ), (-8 : ℚ)))),
    some (86400 * 17851 + 82800)⟩

/-- C2, witness: the amended consistency-check theorem applied to the 24
hourly timestamps of 2018-11-16 at one location. -/
theorem consistency_check_spec_witness :
    (dayTripState.byLoc = [(((42 : ℚ), (-8 : ℚ)), dayTripGroup)] ∧
      dayTripGroup.start_date = 86400 * 17851 ∧
      dayTripGroup.end_date = 86400 * 17851 + 86400 * 1 - 3600 ∧
      (dayTripState.byDate.length : ℤ) = 24 * 1 ∧ (1 : ℤ) ≤ 1) ∧
    ((sampleAll (fun _ _ _ _ => 0) dayTripState.byLoc).processed.length : ℤ) * 6 =
      dayTripState.byDate.length :=
  ⟨⟨rfl, rfl, rfl, by decide, by decide⟩,
    (consistency_check_spec (fun _ _ _ => 0) (fun _ _ _ _ => 0) dayTripState
      ((42 : ℚ), (-8 : ℚ)) dayTripGroup 17851 1 rfl rfl rfl (by decide)
      (by decide)).1⟩

/-- C2, counterexample to the claim as stated: for the 24-record hourly trip
covering 2018-11-16 there are 24 distinct trip samples but 4 sampled 6-hour
timestamps, so "sampled times 4 equals samples" is violated (16 ≠ 24), yet
the run does not abort at the consistency checkpoint. -/
theorem consistency_check_cex :
    (parseTrip hourlyTripLines initTripState).toOption.isSome = true ∧
    hourlyTripState.byDate.length = 24 ∧
    (sampleAll (fun _ _ _ _ => 0) hourlyTripState.byLoc).processed.length = 4 ∧
    (sampleAll (fun _ _ _ _ => 0) hourlyTripState.byLoc).processed.length * 4 ≠
      hourlyTripState.byDate.length ∧
    isErrAssert (main (fun _ _ _ => 0) "air.2018.nc" hourlyTripLines
      (fun _ _ _ _ => 0)) = false :=
  ⟨by decide, by decide, by decide, by decide, by decide⟩

/-! ### Lemmas about the Temporal Upsampler -/

theorem calcXNew_eq_range (L : ℕ) : calcXNew L = List.range (6 * L - 5) := by
  rw [calcXNew, List.take_range]
  congr 1
  omega

/-- C5: for 18 parallel level series of common length `L ≥ 4`, `calc_hourly`
returns 18 series, each of length exactly `6L - 5`, and the hourly
x-coordinates it samples are exactly the integers `0` through `6L - 6`
(`range (6L - 5)`); in particular `L = 4` yields output length 19. -/
theorem calc_hourly_shape (interp : List ℕ → List ℚ → ℕ → ℚ)
    (data : List (List ℚ)) (L : ℕ) (h18 : data.length = 18)
    (hL : ∀ s ∈ data, s.length = L) (h4 : 4 ≤ L) :
    (calc_hourly interp data).length = 18 ∧
    (∀ out ∈ calc_hourly interp data, out.length = 6 * L - 5) ∧
    calcXNew L = List.range (6 * L - 5) := by
  have hhead : (data.headD []).length = L := by
    cases h : data with
    | nil => rw [h] at h18; simp at h18
    | cons s rest =>
      rw [List.headD_cons]
      exact hL s (by rw [h]; simp)
  have hhead' : (data.head?.getD []).length = L := by
    rwa [← List.headD_eq_head?]
  refine ⟨?_, ?_, calcXNew_eq_range L⟩
  · simp [calc_hourly, h18]
  · intro out hout
    simp only [calc_hourly, List.mem_map] at hout
    obtain ⟨row, _, rfl⟩ := hout
    simp [hhead, hhead', calcXNew_eq_range]

/-- C5, witness: 18 series of length 4 produce 18 series of length
`6*4 - 5 = 19`. -/
theorem calc_hourly_shape_witness :
    ((List.replicate 18 (List.replicate 4 (0 : ℚ))).length = 18 ∧ 4 ≤ 4) ∧
    (calc_hourly (fun _ _ _ => 0) (List.replicate 18 (List.replicate 4 0))).length
      = 18 ∧
    ∀ out ∈ calc_hourly (fun _ _ _ => 0) (List.replicate 18 (List.replicate 4 0)),
      out.length = 6 * 4 - 5 :=
  ⟨⟨by simp, le_refl 4⟩,
    (calc_hourly_shape (fun _ _ _ => 0) _ 4 (by simp)
      (fun s hs => by rw [List.eq_of_mem_replicate hs]; simp) (le_refl 4)).1,
    (calc_hourly_shape (fun _ _ _ => 0) _ 4 (by simp)
      (fun s hs => by rw [List.eq_of_mem_replicate hs]; simp) (le_refl 4)).2.1⟩

/-! ### Lemmas about the fatal paths of `main` -/

theorem parseTrip_skips_nonmatching (lines : List String) (st : TripState)
    (h : ∀ line ∈ lines, matchTripLine line.data = none) :
    parseTrip lines st = .ok st := by
  induction lines with
  | nil => rfl
  | cons l rest ih =>
    have hl : parseLine l = .ok none := by
      rw [parseLine, h l (by simp)]
    rw [parseTrip, hl]
    exact ih (fun line hline => h line (by simp [hline]))

/-- C7: for every run whose trip file parses and whose final matched
timestamp's calendar year differs from the year embedded in the dataset
filename (the concatenated digit substring of the filename), `main` aborts
with the year-mismatch `ValueError` and never reaches the dataset open. -/
theorem year_mismatch_aborts (interp : List ℕ → List ℚ → ℕ → ℚ)
    (air : ℤ → ℕ → ℕ → ℕ → ℚ) (nc_file : String) (lines : List String) (d : ℤ)
    (hY : nc_file.data.filter Char.isDigit ≠ [])
    (hP : (Except.toOption (parseTrip lines initTripState)).map TripState.endDate
      = some (some d))
    (hM : yearOfDay (dayOf d) ≠ (natOfDigits (nc_file.data.filter Char.isDigit) : ℤ)) :
    main interp nc_file lines air = .errYearMismatch ∧
    opensDataset nc_file lines = false := by
  obtain ⟨pt, hpt, hend⟩ : ∃ pt, parseTrip lines initTripState = .ok pt ∧
      pt.endDate = some d := by
    cases hq : parseTrip lines initTripState with
    | error e => rw [hq] at hP; simp [Except.toOption] at hP
    | ok pt =>
      rw [hq] at hP
      simp only [Except.toOption, Option.map_some] at hP
      exact ⟨pt, rfl, by injection hP⟩
  have h1 : mainPhase1 nc_file lines = .error .errYearMismatch := by
    simp only [mainPhase1, hpt, hend]
    rw [if_neg (by simpa [List.isEmpty_iff] using hY), if_pos hM]
  exact ⟨by rw [main, h1], by rw [opensDataset, h1]⟩

/-- C7, witness: a 2018 trip against the dataset filename `air.2019.nc`. -/
theorem year_mismatch_aborts_witness :
    ("air.2019.nc".data.filter Char.isDigit ≠ [] ∧
      (Except.toOption (parseTrip ["2018-11-16 00:00:00+00    42    -8"]
        initTripState)).map TripState.endDate = some (some nov16) ∧
      yearOfDay (dayOf nov16) ≠
        (natOfDigits ("air.2019.nc".data.filter Char.isDigit) : ℤ)) ∧
    main (fun _ _ _ => 0) "air.2019.nc" ["2018-11-16 00:00:00+00    42    -8"]
        (fun _ _ _ _ => 0) = .errYearMismatch ∧
    opensDataset "air.2019.nc" ["2018-11-16 00:00:00+00    42    -8"] = false :=
  ⟨⟨by decide, by decide, by decide⟩,
    year_mismatch_aborts (fun _ _ _ => 0) (fun _ _ _ _ => 0) "air.2019.nc"
      ["2018-11-16 00:00:00+00    42    -8"] nov16 (by decide) (by decide)
      (by decide)⟩

/-- C8: for every run whose trip file has no line matching the record
pattern (including an empty file), `main` terminates with exit status 1 and
never attempts to open the dataset file. -/
theorem empty_trip_exits_one (interp : List ℕ → List ℚ → ℕ → ℚ)
    (air : ℤ → ℕ → ℕ → ℕ → ℚ) (nc_file : String) (lines : List String)
    (hY : nc_file.data.filter Char.isDigit ≠ [])
    (hN : ∀ line ∈ lines, matchTripLine line.data = none) :
    main interp nc_file lines air = .exit1 ∧
    opensDataset nc_file lines = false := by
  have h1 : mainPhase1 nc_file lines = .error .exit1 := by
    rw [mainPhase1, parseTrip_skips_nonmatching lines initTripState hN]
    rw [if_neg (by simpa [List.isEmpty_iff] using hY)]
    rfl
  exact ⟨by rw [main, h1], by rw [opensDataset, h1]⟩

/-- C8, witness: a one-line trip file with no matching record. -/
theorem empty_trip_exits_one_witness :
    ("air.2018.nc".data.filter Char.isDigit ≠ [] ∧
      (∀ line ∈ ["no trip data here"], matchTripLine line.data = none)) ∧
    main (fun _ _ _ => 0) "air.2018.nc" ["no trip data here"]
        (fun _ _ _ _ => 0) = .exit1 ∧
    opensDataset "air.2018.nc" ["no trip data here"] = false :=
  ⟨⟨by decide, by decide⟩,
    empty_trip_exits_one (fun _ _ _ => 0) (fun _ _ _ _ => 0) "air.2018.nc"
      ["no trip data here"] (by decide) (by decide)⟩

/-! ### Lemmas about the Grid Locator -/

theorem minByKey_spec (key : ℚ → ℚ) (x : ℚ) (xs : List ℚ) :
    ∃ m k, minByKey key (x :: xs) = some m ∧ k < (x :: xs).length ∧
      (x :: xs).getD k 0 = m ∧
      (∀ j, j < (x :: xs).length → key m ≤ key ((x :: xs).getD j 0)) ∧
      (∀ j, j < k → key m < key ((x :: xs).getD j 0)) := by
  induction xs generalizing x with
  | nil =>
    refine ⟨x, 0, rfl, by simp, rfl, ?_, by omega⟩
    intro j hj
    match j with
    | 0 => simp
    | j' + 1 =>
      simp only [List.length_cons, List.length_nil] at hj
      omega
  | cons p t ih =>
    by_cases hxp : key p < key x
    · obtain ⟨m, k, hmk, hk, hget, hmin, hstrict⟩ := ih p
      have hfold : minByKey key (x :: p :: t) = some m := by
        have : minByKey key (x :: p :: t) =
            some (t.foldl (fun best q => if key q < key best then q else best)
              (if key p < key x then p else x)) := rfl
        rw [this, if_pos hxp]
        simpa [minByKey] using hmk
      refine ⟨m, k + 1, hfold, by simpa using hk, by simpa using hget, ?_, ?_⟩
      · intro j hj
        match j with
        | 0 =>
          have h0 := hmin 0 (by simp)
          simp only [List.getD_cons_zero] at h0 ⊢
          exact le_of_lt (lt_of_le_of_lt h0 hxp)
        | j' + 1 =>
          have := hmin j' (by simpa using hj)
          simpa using this
      · intro j hj
        match j with
        | 0 =>
          have h0 := hmin 0 (by simp)
          simp only [List.getD_cons_zero] at h0 ⊢
          exact lt_of_le_of_lt h0 hxp
        | j' + 1 =>
          have := hstrict j' (by omega)
          simpa using this
    · obtain ⟨m, k, hmk, hk, hget, hmin, hstrict⟩ := ih x
      have hxlep : key x ≤ key p := le_of_not_lt hxp
      have hfold : minByKey key (x :: p :: t) = some m := by
        have : minByKey key (x :: p :: t) =
            some (t.foldl (fun best q => if key q < key best then q else best)
              (if key p < key x then p else x)) := rfl
        rw [this, if_neg hxp]
        simpa [minByKey] using hmk
      match k, hget with
      | 0, hget =>
        refine ⟨m, 0, hfold, by simp, by simpa using hget, ?_, by omega⟩
        intro j hj
        simp only [List.getD_cons_zero] at hget
        match j with
        | 0 => simp [hget]
        | 1 =>
          simp only [List.getD_cons_zero, List.getD_cons_succ]
          rw [← hget]
          exact hxlep
        | j' + 2 =>
          have := hmin (j' + 1) (by simpa using hj)
          simpa using this
      | k' + 1, hget =>
        have hmx : key m < key x := by
          have := hstrict 0 (by omega)
          simpa using this
        refine ⟨m, k' + 2, hfold, by simpa using hk, by simpa using hget, ?_, ?_⟩
        · intro j hj
          match j with
          | 0 => simpa using le_of_lt hmx
          | 1 =>
            simp only [List.getD_cons_zero, List.getD_cons_succ]
            exact le_of_lt (lt_of_lt_of_le hmx hxlep)
          | j' + 2 =>
            have := hmin (j' + 1) (by simpa using hj)
            simpa using this
        · intro j hj
          match j with
          | 0 => simpa using hmx
          | 1 =>
            simp only [List.getD_cons_zero, List.getD_cons_succ]
            exact lt_of_lt_of_le hmx hxlep
          | j' + 2 =>
            have := hstrict (j' + 1) (by omega)
            simpa using this

theorem listIndex_getD (l : List ℚ) (v : ℚ) (h : v ∈ l) :
    listIndex l v < l.length ∧ l.getD (listIndex l v) 0 = v := by
  induction l with
  | nil => simp at h
  | cons x xs ih =>
    by_cases hx : x = v
    · simp [listIndex, hx]
    · have hv : v ∈ xs := by
        rcases List.mem_cons.mp h with h' | h'
        · exact absurd h'.symm hx
        · exact h'
      obtain ⟨ih1, ih2⟩ := ih hv
      refine ⟨?_, ?_⟩
      · simp only [listIndex, if_neg hx, List.length_cons]
        omega
      · simp only [listIndex, if_neg hx, List.getD_cons_succ]
        exact ih2

theorem listIndex_first (l : List ℚ) (v : ℚ) (j : ℕ) (hj : j < listIndex l v) :
    l.getD j 0 ≠ v := by
  induction l generalizing j with
  | nil => simp [listIndex] at hj
  | cons x xs ih =>
    by_cases hx : x = v
    · simp [listIndex, hx] at hj
    · match j with
      | 0 => simpa using hx
      | j' + 1 =>
        simp only [listIndex, if_neg hx] at hj
        simpa using ih j' (by omega)

theorem listIndex_le_of_getD (l : List ℚ) (v : ℚ) (k : ℕ)
    (hget : l.getD k 0 = v) : listIndex l v ≤ k := by
  by_contra hlt
  exact listIndex_first l v k (Nat.lt_of_not_le hlt) hget

theorem getD_mem (l : List ℚ) (k : ℕ) (hk : k < l.length) : l.getD k 0 ∈ l := by
  induction l generalizing k with
  | nil => simp at hk
  | cons x xs ih =>
    match k with
    | 0 => simp
    | k' + 1 =>
      simp only [List.getD_cons_succ]
      exact List.mem_cons_of_mem x (ih k' (by simpa using hk))

/-- The nearest-index computation at a fixed normalized query `q`:
membership of the result, minimality of its distance, and first-match tie
resolution. -/
theorem nearest_index_spec (pos : List ℚ) (q : ℚ) (hne : pos ≠ []) :
    (match minByKey (fun p => |p - q|) pos with
      | some m => listIndex pos m
      | none => 0) < pos.length ∧
    (∀ j, j < pos.length →
      |pos.getD (match minByKey (fun p => |p - q|) pos with
        | some m => listIndex pos m
        | none => 0) 0 - q| ≤ |pos.getD j 0 - q|) ∧
    (∀ j, j < (match minByKey (fun p => |p - q|) pos with
        | some m => listIndex pos m
        | none => 0) →
      |pos.getD (match minByKey (fun p => |p - q|) pos with
        | some m => listIndex pos m
        | none => 0) 0 - q| < |pos.getD j 0 - q|) := by
  match pos, hne with
  | x :: xs, _ =>
    obtain ⟨m, k, hmk, hk, hget, hmin, hstrict⟩ :=
      minByKey_spec (fun p => |p - q|) x xs
    rw [hmk]
    have hidx := listIndex_getD (x :: xs) m (hget ▸ getD_mem _ _ hk)
    have hle : listIndex (x :: xs) m ≤ k := listIndex_le_of_getD _ _ _ hget
    refine ⟨hidx.1, ?_, ?_⟩
    · intro j hj
      rw [hidx.2]
      exact hmin j hj
    · intro j hj
      rw [hidx.2]
      exact hstrict j (lt_of_lt_of_le hj hle)

/-- C6: `approximate_position` returns the index of the lattice point with
minimum absolute difference to the query, ties resolving to the first minimal
match in iteration order; latitude queries are used as-is, longitude queries
below 0 are first mapped to `360 + value`, so the longitude query `-8.73`
resolves to the same index as a direct query of `351.27`. -/
theorem approximate_position_nearest (pos : List ℚ) (v : ℚ) (hne : pos ≠ []) :
    (approximate_position pos (some v) none < pos.length ∧
      (∀ j, j < pos.length →
        |pos.getD (approximate_position pos (some v) none) 0 - v| ≤
          |pos.getD j 0 - v|) ∧
      (∀ j, j < approximate_position pos (some v) none →
        |pos.getD (approximate_position pos (some v) none) 0 - v| <
          |pos.getD j 0 - v|)) ∧
    ((approximate_position pos none (some v) < pos.length ∧
      (∀ j, j < pos.length →
        |pos.getD (approximate_position pos none (some v)) 0 -
            (if 0 ≤ v then v else 360 + v)| ≤
          |pos.getD j 0 - (if 0 ≤ v then v else 360 + v)|) ∧
      (∀ j, j < approximate_position pos none (some v) →
        |pos.getD (approximate_position pos none (some v)) 0 -
            (if 0 ≤ v then v else 360 + v)| <
          |pos.getD j 0 - (if 0 ≤ v then v else 360 + v)|))) ∧
    approximate_position NC_LON none (some (-873/100)) =
      approximate_position NC_LON none (some (35127/100)) := by
  refine ⟨nearest_index_spec pos v hne, nearest_index_spec pos _ hne, ?_⟩
  have h1 : (if (0 : ℚ) ≤ -873/100 then (-873/100 : ℚ) else 360 + -873/100) =
      35127/100 := by norm_num
  have h2 : (if (0 : ℚ) ≤ 35127/100 then (35127/100 : ℚ) else 360 + 35127/100) =
      35127/100 := by norm_num
  show (match minByKey
      (fun p => |p - (if (0 : ℚ) ≤ -873/100 then (-873/100 : ℚ) else 360 + -873/100)|)
      NC_LON with
    | some m => listIndex NC_LON m
    | none => 0) =
    (match minByKey
      (fun p => |p - (if (0 : ℚ) ≤ 35127/100 then (35127/100 : ℚ) else 360 + 35127/100)|)
      NC_LON with
    | some m => listIndex NC_LON m
    | none => 0)
  simp only [h1, h2]

/-- C6, witness: the nearest-index theorem applied to the longitude lattice
at query 0. -/
theorem approximate_position_nearest_witness :
    NC_LON ≠ [] ∧ approximate_position NC_LON (some 0) none < NC_LON.length :=
  ⟨by decide, (approximate_position_nearest NC_LON 0 (by decide)).1.1⟩

/-! ### Lemmas about the Report Writer -/

theorem foldl_min_lengths (b M : ℕ) (ls : List (List ℚ)) (hne : ls ≠ [])
    (h : ∀ s ∈ ls, s.length = M) :
    ls.foldl (fun m s => min m s.length) b = min b M := by
  induction ls generalizing b with
  | nil => exact absurd rfl hne
  | cons s t ih =>
    rw [List.foldl_cons, h s (by simp)]
    cases t with
    | nil => simp
    | cons s' t' =>
      rw [ih (min b M) (by simp) (fun x hx => h x (by simp [List.mem_cons.mp hx]))]
      rw [min_assoc, min_self]

theorem getD_map_range {α : Type} (n i : ℕ) (f : ℕ → α) (d : α) (h : i < n) :
    ((List.range n).map f).getD i d = f i := by
  rw [List.getD_eq_getElem?_getD, List.getElem?_map, List.getElem?_range h]
  rfl

/-- C9: the report consists of a header of 23 column names followed by
exactly `min (number of trip timestamps) (number of hourly rows)` data rows;
the `i`-th data row pairs the `i`-th trip timestamp with the `i`-th entry of
each of the 18 hourly level series and carries exactly 23 fields; surplus
elements of the longer sequence are dropped. -/
theorem report_shape (pt : TripState) (hourly : List (List ℚ)) (M : ℕ)
    (h18 : hourly.length = 18) (hM : ∀ s ∈ hourly, s.length = M) :
    (reportOf pt hourly).1.length = 23 ∧
    (reportOf pt hourly).2.length = min pt.byDate.length M ∧
    (∀ r ∈ (reportOf pt hourly).2, r.length = 23) ∧
    ∀ i, i < min pt.byDate.length M →
      (reportOf pt hourly).2.getD i [] =
        rowFields (mkRow pt.byLoc (pt.byDate.getD i (0, (0, 0)))
          (hourly.map (fun s => s.getD i 0))) := by
  have hne : hourly ≠ [] := by
    intro h
    rw [h] at h18
    simp at h18
  have hn : hourly.foldl (fun m s => min m s.length) pt.byDate.length =
      min pt.byDate.length M := foldl_min_lengths _ M hourly hne hM
  have hrows : (reportOf pt hourly).2 =
      (List.range (min pt.byDate.length M)).map
        (fun i => rowFields (mkRow pt.byLoc (pt.byDate.getD i (0, (0, 0)))
          (hourly.map (fun s => s.getD i 0)))) := by
    simp only [reportOf, pyZipRows, hn, List.map_map]
    rfl
  refine ⟨by simp [reportOf, headerFields], ?_, ?_, ?_⟩
  · simp [hrows]
  · intro r hr
    rw [hrows] at hr
    simp only [List.mem_map, List.mem_range] at hr
    obtain ⟨i, _, rfl⟩ := hr
    simp [rowFields, mkRow, h18]
  · intro i hi
    rw [hrows, getD_map_range _ _ _ _ hi]

/-- C9, witness: one trip timestamp and 18 singleton hourly series yield a
23-name header and exactly one data row. -/
theorem report_shape_witness :
    ((List.replicate 18 [(0 : ℚ)]).length = 18) ∧
    (reportOf ⟨[], [((0 : ℤ), ((0 : ℚ), (0 : ℚ)))], some 0⟩
      (List.replicate 18 [0])).1.length = 23 ∧
    (reportOf ⟨[], [((0 : ℤ), ((0 : ℚ), (0 : ℚ)))], some 0⟩
      (List.replicate 18 [0])).2.length = 1 :=
  ⟨by simp,
    (report_shape ⟨[], [((0 : ℤ), ((0 : ℚ), (0 : ℚ)))], some 0⟩
      (List.replicate 18 [0]) 1 (by simp)
      (fun s hs => by rw [List.eq_of_mem_replicate hs]; simp)).1,
    by
      have h := (report_shape ⟨[], [((0 : ℤ), ((0 : ℚ), (0 : ℚ)))], some 0⟩
        (List.replicate 18 [0]) 1 (by simp)
        (fun s hs => by rw [List.eq_of_mem_replicate hs]; simp)).2.1
      simpa using h⟩

/-! ### Lemmas about duplicate trip timestamps -/

/-- The parsed records of the matched lines of a trip file, in file order. -/
def matchedRecs (lines : List String) : List TripRec :=
  lines.filterMap
    (fun l => match parseLine l with | .ok (some r) => some r | _ => none)

/-- The location of the last matched record carrying the timestamp `d`. -/
def lastLoc (rs : List TripRec) (d : ℤ) : Option (ℚ × ℚ) :=
  ((rs.filter (fun r => r.date == d)).getLast?).map (fun r => (r.lat, r.lon))

/-- The distinct elements of a list, in first-occurrence order. -/
def firstDedup (ds : List ℤ) : List ℤ :=
  ds.foldl (fun a d => if d ∈ a then a else a ++ [d]) []

theorem parseTrip_byDate (lines : List String) (st pt : TripState)
    (h : parseTrip lines st = .ok pt) :
    pt.byDate = (matchedRecs lines).foldl
      (fun m r => dictInsert m r.date (r.lat, r.lon)) st.byDate := by
  induction lines generalizing st with
  | nil =>
    rw [parseTrip] at h
    injection h with h
    rw [← h, matchedRecs]
    rfl
  | cons l rest ih =>
    rw [parseTrip] at h
    have hm : matchedRecs (l :: rest) =
        (match parseLine l with
          | .ok (some r) => [r]
          | _ => []) ++ matchedRecs rest := by
      rw [matchedRecs, List.filterMap_cons]
      cases parseLine l with
      | error e => rfl
      | ok o => cases o <;> rfl
    cases hl : parseLine l with
    | error e => rw [hl] at h; exact absurd h (by simp)
    | ok o =>
      cases o with
      | none =>
        rw [hl] at h
        rw [hm, hl]
        simpa using ih st h
      | some r =>
        rw [hl] at h
        rw [hm, hl]
        simpa using ih (stepTrip st r) h

theorem dictLookup_dictInsert {K V : Type} [DecidableEq K]
    (m : List (K × V)) (k d : K) (v : V) :
    dictLookup (dictInsert m k v) d = if k = d then some v else dictLookup m d := by
  induction m with
  | nil => rfl
  | cons p t ih =>
    obtain ⟨k', v'⟩ := p
    by_cases hk : k' = k
    · subst hk
      rw [dictInsert, if_pos rfl]
      by_cases hd : k' = d
      · subst hd
        simp [dictLookup]
      · simp [dictLookup, hd]
    · rw [dictInsert, if_neg hk]
      by_cases hd : k' = d
      · subst hd
        have : ¬(k = k') := fun h => hk h.symm
        simp [dictLookup, this]
      · simp [dictLookup, hd, ih]

theorem lastLoc_cons (r : TripRec) (t : List TripRec) (d : ℤ) :
    lastLoc (r :: t) d =
      match lastLoc t d with
      | some v => some v
      | none => if r.date = d then some (r.lat, r.lon) else none := by
  rw [lastLoc, lastLoc, List.filter_cons]
  by_cases hd : r.date = d
  · rw [if_pos (by simpa using hd)]
    cases hft : t.filter (fun r => r.date == d) with
    | nil => simp [hft, hd]
    | cons x xs =>
      rw [List.getLast?_cons_cons]
      cases hlast : (x :: xs).getLast? with
      | none => simp at hlast
      | some y => simp [hlast]
  · rw [if_neg (by simpa using hd)]
    cases hl : (t.filter (fun r => r.date == d)).getLast? with
    | none => simp [hl, hd]
    | some y => simp [hl]

theorem dictLookup_fold (rs : List TripRec) (m : List (ℤ × (ℚ × ℚ))) (d : ℤ) :
    dictLookup (rs.foldl (fun m r => dictInsert m r.date (r.lat, r.lon)) m) d =
      match lastLoc rs d with
      | some v => some v
      | none => dictLookup m d := by
  induction rs generalizing m with
  | nil => rw [lastLoc]; rfl
  | cons r t ih =>
    rw [List.foldl_cons, ih, lastLoc_cons, dictLookup_dictInsert]
    cases lastLoc t d with
    | some v => rfl
    | none =>
      by_cases hd : r.date = d
      · simp [hd]
      · simp [hd]

theorem map_fst_dictInsert {K V : Type} [DecidableEq K]
    (m : List (K × V)) (k : K) (v : V) :
    (dictInsert m k v).map Prod.fst =
      if k ∈ m.map Prod.fst then m.map Prod.fst else m.map Prod.fst ++ [k] := by
  induction m with
  | nil => simp [dictInsert]
  | cons p t ih =>
    obtain ⟨k', v'⟩ := p
    by_cases hk : k' = k
    · subst hk
      rw [dictInsert, if_pos rfl]
      simp
    · rw [dictInsert, if_neg hk]
      have hne : ¬(k = k') := fun h => hk h.symm
      by_cases hmem : k ∈ t.map Prod.fst
      · simp [ih, hmem, hne]
      · simp [ih, hmem, hne]

theorem map_fst_fold (rs : List TripRec) (m : List (ℤ × (ℚ × ℚ))) :
    ((rs.foldl (fun m r => dictInsert m r.date (r.lat, r.lon)) m).map Prod.fst) =
      (rs.map TripRec.date).foldl
        (fun a d => if d ∈ a then a else a ++ [d]) (m.map Prod.fst) := by
  induction rs generalizing m with
  | nil => rfl
  | cons r t ih =>
    rw [List.foldl_cons, ih, List.map_cons, List.foldl_cons, map_fst_dictInsert]

theorem nodup_keys_fold (rs : List TripRec) (m : List (ℤ × (ℚ × ℚ)))
    (h : (m.map Prod.fst).Nodup) :
    ((rs.foldl (fun m r => dictInsert m r.date (r.lat, r.lon)) m).map Prod.fst).Nodup := by
  induction rs generalizing m with
  | nil => exact h
  | cons r t ih =>
    refine ih _ ?_
    rw [map_fst_dictInsert]
    by_cases hmem : r.date ∈ m.map Prod.fst
    · simpa [hmem]
    · rw [if_neg hmem]
      refine List.Nodup.append h (List.nodup_singleton _) ?_
      intro a ha hb
      simp only [List.mem_singleton] at hb
      subst hb
      exact hmem ha

theorem foldl_min_le (ls : List (List ℚ)) (b : ℕ) :
    ls.foldl (fun m s => min m s.length) b ≤ b := by
  induction ls generalizing b with
  | nil => exact le_refl b
  | cons s t ih => exact le_trans (ih (min b s.length)) (min_le_left _ _)

/-- C10: when several matched lines share a timestamp, the
timestamp-to-group mapping keeps one entry per distinct timestamp (its keys
are duplicate-free) holding the last such line's location; its size — the
quantity both the consistency check and the output row count are computed
from — is the number of distinct matched timestamps, and the report emits at
most one row per distinct timestamp. -/
theorem trip_by_date_last_wins (lines : List String) (byD : List (ℤ × (ℚ × ℚ)))
    (hP : (Except.toOption (parseTrip lines initTripState)).map TripState.byDate
      = some byD) :
    (byD.map Prod.fst).Nodup ∧
    (∀ d, dictLookup byD d = lastLoc (matchedRecs lines) d) ∧
    byD.length = (firstDedup ((matchedRecs lines).map TripRec.date)).length ∧
    ∀ hourly, (pyZipRows byD hourly).length ≤ byD.length := by
  obtain ⟨pt, hpt, hbd⟩ : ∃ pt, parseTrip lines initTripState = .ok pt ∧
      pt.byDate = byD := by
    cases hq : parseTrip lines initTripState with
    | error e => rw [hq] at hP; simp [Except.toOption] at hP
    | ok pt =>
      rw [hq] at hP
      simp only [Except.toOption, Option.map_some] at hP
      exact ⟨pt, rfl, by injection hP⟩
  have hfold : byD = (matchedRecs lines).foldl
      (fun m r => dictInsert m r.date (r.lat, r.lon)) [] := by
    rw [← hbd]
    exact parseTrip_byDate lines initTripState pt hpt
  refine ⟨?_, ?_, ?_, ?_⟩
  · rw [hfold]
    exact nodup_keys_fold _ [] (by simp)
  · intro d
    rw [hfold, dictLookup_fold]
    cases lastLoc (matchedRecs lines) d with
    | some v => rfl
    | none => rfl
  · rw [hfold, ← List.length_map _ Prod.fst, map_fst_fold]
    rfl
  · intro hourly
    rw [pyZipRows]
    simpa using foldl_min_le hourly byD.length

/-- C10, witness: two matched lines with the same timestamp; the mapping
keeps one entry whose value is the second line's location. -/
theorem trip_by_date_last_wins_witness :
    ((Except.toOption (parseTrip
        ["2018-11-16 00:00:00+00    42    -8", "2018-11-16 00:00:00+00    43    -9"]
        initTripState)).map TripState.byDate
      = some [(nov16, ((43 : ℚ), (-9 : ℚ)))]) ∧
    dictLookup [(nov16, ((43 : ℚ), (-9 : ℚ)))] nov16 =
      lastLoc (matchedRecs
        ["2018-11-16 00:00:00+00    42    -8", "2018-11-16 00:00:00+00    43    -9"])
        nov16 :=
  ⟨by decide,
    (trip_by_date_last_wins
      ["2018-11-16 00:00:00+00    42    -8", "2018-11-16 00:00:00+00    43    -9"]
      [(nov16, ((43 : ℚ), (-9 : ℚ)))] (by decide)).2.1 nov16⟩

end AirTemp




